import Mathlib

/-!
# Verification of the FestivalFriend extraction / classification / merge pipeline

Shallow embedding of the repository's core modules:

* `storage.py`   — the knowledge-base merge (`merge_artists`);
* `classifier.py` — the MusicBrainz classification client
  (`_search_artist`, `_tags_to_genres`, `_tags_to_timbre`,
  `classify_artist`, `classify_batch`);
* `ocr.py`       — the OCR noise filter (`_is_ocr_noise` and its regexes),
  the fuzzy MusicBrainz validator (`_validate_artist_musicbrainz`,
  `_fuzzy_match`);
* `app.py`       — name normalization (`_clean_artist_names`) and the
  cosine-similarity recommender (`_find_similar_artists`).

Python dicts are modelled as insertion-ordered association lists, JSON
strings as `String`, timestamps as opaque `String` parameters, and the
network as explicit response functions.
-/

namespace FestivalFriend

/-! ## storage.py: data model -/

/-- Python `str.lower()` (ASCII fragment, which is all the pipeline's
comparisons rely on): lowercase every character. -/
def pyLower (s : String) : String := ⟨s.data.map Char.toLower⟩

/-- Python `str.strip()`: drop leading and trailing whitespace. -/
def pyStrip (s : String) : String :=
  ⟨((s.data.dropWhile Char.isWhitespace).reverse.dropWhile Char.isWhitespace).reverse⟩

/-- `storage._normalize_name`: `name.strip().lower()`. -/
def normalizeName (name : String) : String := pyLower (pyStrip name)

/-- A festival reference stored inside an artist record
(`festival_entry` in `merge_artists`: name, url, date_scraped). -/
structure ArtistFest where
  name : String
  url : String
  dateScraped : String
deriving DecidableEq, Repr

/-- A top-level festival record (`festival_entry` plus `artist_count`). -/
structure FestivalRec where
  name : String
  url : String
  dateScraped : String
  artistCount : Nat
deriving DecidableEq, Repr

/-- An artist record as written by `merge_artists`. -/
structure ArtistRec where
  name : String
  genres : List String
  timbre : List String
  festivals : List ArtistFest
  firstSeen : String
  lastUpdated : String
deriving DecidableEq, Repr

/-- A classification value `{"genres": [...], "timbre": [...]}`. -/
structure Classification where
  genres : List String
  timbre : List String
deriving DecidableEq, Repr

/-- The `festival_info` argument of `merge_artists`. -/
structure FestivalInfo where
  name : String
  url : String
deriving DecidableEq, Repr

/-- The knowledge base (`data`): `artists` is a Python dict modelled as an
insertion-ordered association list, `festivals` a list.  The `metadata`
key is omitted: `merge_artists` neither reads nor writes it. -/
structure Store where
  artists : List (String × ArtistRec)
  festivals : List FestivalRec
deriving DecidableEq, Repr

/-- Dict read: first binding of a key in an association list. -/
def alistLookup {α : Type} (l : List (String × α)) (k : String) : Option α :=
  match l with
  | [] => none
  | (k', v) :: rest => if k' = k then some v else alistLookup rest k

/-- Dict write to an existing key: replace the value at that key. -/
def alistUpdate {α : Type} (l : List (String × α)) (k : String) (v : α) :
    List (String × α) :=
  l.map (fun p => if p.1 = k then (k, v) else p)

/-- The `if key in data["artists"]` branch of the `merge_artists` loop
(storage.py lines 59-68): merge the festival reference if its url is new,
overwrite genres/timbre when the incoming genre list is non-empty
(`if classification["genres"]:`), and stamp `last_updated`. -/
def mergeExistingArtist (classification : Classification)
    (festivalInfo : FestivalInfo) (now : String) (artist : ArtistRec) : ArtistRec :=
  let festEntry : ArtistFest := ⟨festivalInfo.name, festivalInfo.url, now⟩
  -- Merge festival if not already listed
  let artist1 := if festivalInfo.url ∈ artist.festivals.map (·.url) then artist
    else { artist with festivals := artist.festivals ++ [festEntry] }
  -- Update classification if we got new data
  let artist2 := if classification.genres ≠ [] then
      { artist1 with genres := classification.genres, timbre := classification.timbre }
    else artist1
  { artist2 with lastUpdated := now }

/-- One iteration of the `for name in artist_names` loop of
`storage.merge_artists` (lines 54-77). -/
def mergeStep (classifications : List (String × Classification))
    (festivalInfo : FestivalInfo) (now : String)
    (data : Store) (name : String) : Store :=
  let festEntry : ArtistFest := ⟨festivalInfo.name, festivalInfo.url, now⟩
  let key := normalizeName name
  let classification := (alistLookup classifications name).getD ⟨[], []⟩
  match alistLookup data.artists key with
  | some artist =>
      let merged := mergeExistingArtist classification festivalInfo now artist
      { data with artists := alistUpdate data.artists key merged }
  | none =>
      { data with artists :=
          data.artists ++
            [(key, ⟨name, classification.genres, classification.timbre,
                    [festEntry], now, now⟩)] }

/-- `storage.merge_artists` (lines 41-79).  `now` stands for the
timestamp `datetime.now(...).isoformat()` computed at entry. -/
def mergeArtists (data : Store) (artistNames : List String)
    (classifications : List (String × Classification))
    (festivalInfo : FestivalInfo) (now : String) : Store :=
  -- Check if this festival URL was already scraped
  let urlExists := data.festivals.any (fun f => f.url = festivalInfo.url)
  let data1 := if urlExists then data
    else { data with festivals :=
        data.festivals ++
          [⟨festivalInfo.name, festivalInfo.url, now, artistNames.length⟩] }
  artistNames.foldl (mergeStep classifications festivalInfo now) data1

/-! ## A small regular-expression engine (Brzozowski derivatives)

The noise filters of `ocr.py` and the tag filter of `classifier.py` are
compiled Python regexes used only for their boolean match result, so language
membership is the faithful semantics.  Patterns below are transcribed from the
source alternative by alternative; `re.match` on a `^(...)$`-anchored pattern
is whole-string membership, `re.search` is membership of some substring. -/

inductive RE where
  | emp : RE
  | eps : RE
  | chr : (Char → Bool) → RE
  | alt : RE → RE → RE
  | cat : RE → RE → RE
  | star : RE → RE

namespace RE

def nullable : RE → Bool
  | emp => false
  | eps => true
  | chr _ => false
  | alt a b => nullable a || nullable b
  | cat a b => nullable a && nullable b
  | star _ => true

/-- Alternation smart constructor: drops dead `emp` branches (language
preserving) so that derivatives stay small enough to evaluate. -/
def altS : RE → RE → RE
  | emp, r => r
  | r, emp => r
  | a, b => alt a b

/-- Concatenation smart constructor: collapses `emp` and `eps`. -/
def catS : RE → RE → RE
  | emp, _ => emp
  | eps, r => r
  | a, b => match b with
    | emp => emp
    | eps => a
    | b => cat a b

/-- Brzozowski derivative: the residual language after consuming `c`. -/
def deriv (c : Char) : RE → RE
  | emp => emp
  | eps => emp
  | chr p => if p c then eps else emp
  | alt a b => altS (deriv c a) (deriv c b)
  | cat a b => if nullable a then altS (catS (deriv c a) b) (deriv c b)
      else catS (deriv c a) b
  | star a => catS (deriv c a) (star a)

/-- Whole-string match (`re.match` against a `^(...)$`-anchored pattern). -/
def reMatch (r : RE) (s : String) : Bool :=
  nullable (s.data.foldl (fun r c => deriv c r) r)

def lit1 (c : Char) : RE := chr (fun d => d = c)

/-- Case-insensitive literal character, for patterns compiled with `(?i)`. -/
def litCI1 (c : Char) : RE := chr (fun d => d.toLower = c.toLower)

def seqs : List RE → RE
  | [] => eps
  | [r] => r
  | r :: rs => cat r (seqs rs)

def alts : List RE → RE
  | [] => emp
  | [r] => r
  | r :: rs => alt r (alts rs)

def lit (s : String) : RE := seqs (s.data.map lit1)

def litCI (s : String) : RE := seqs (s.data.map litCI1)

def opt (r : RE) : RE := alt r eps

def rep1 (r : RE) : RE := cat r (star r)

def oneOf (cs : List Char) : RE := chr (fun d => cs.contains d)

/-- `\d` (the inputs at stake are ASCII). -/
def digit : RE := chr Char.isDigit

/-- `\w`. -/
def wordc : RE := chr (fun c => c.isAlphanum || c = '_')

/-- `\s`. -/
def wsc : RE := chr Char.isWhitespace

/-- `r{m,n}`. -/
def repRange (m n : Nat) (r : RE) : RE :=
  seqs (List.replicate m r ++ List.replicate (n - m) (opt r))

/-- `.` (a compiled pattern without DOTALL: any character but a newline). -/
def dotC : RE := chr (fun c => c ≠ '\n')

def anyC : RE := chr (fun _ => true)

/-- `re.search`: some substring of `s` belongs to `r`'s language. -/
def searchEx (r : RE) (s : String) : Bool :=
  reMatch (cat (star anyC) (cat r (star anyC))) s

end RE

namespace Ocr

open RE

/-- `ocr._DATE_PATTERN` (ocr.py lines 27-38), alternative by alternative. -/
def monthRE : RE :=
  alts (["jan", "feb", "mar", "apr", "may", "jun",
         "jul", "aug", "sep", "oct", "nov", "dec"].map litCI)

def dayOrdRE : RE := alts (["st", "nd", "rd", "th"].map litCI)

def weekdayRE : RE :=
  alts (["mon", "tue", "wed", "thu", "fri", "sat", "sun"].map litCI)

def datePattern : RE :=
  alts [
    -- \d{1,2}[/\-.]\d{1,2}([/\-.]\d{2,4})?        e.g. 14/06, 14-16, 14.06.2025
    seqs [repRange 1 2 digit, oneOf ['/', '-', '.'], repRange 1 2 digit,
      opt (seqs [oneOf ['/', '-', '.'], repRange 2 4 digit])],
    -- \d{1,2}\s*(st|nd|rd|th)?\s*(of\s+)?(jan|...|dec)\w*     e.g. 14th June
    seqs [repRange 1 2 digit, star wsc, opt dayOrdRE, star wsc,
      opt (seqs [litCI "of", rep1 wsc]), monthRE, star wordc],
    -- (jan|...|dec)\w*\s+\d{1,2}\s*(st|nd|rd|th)?(\s*[-–]\s*\d{1,2}\s*(st|nd|rd|th)?)?
    seqs [monthRE, star wordc, rep1 wsc, repRange 1 2 digit, star wsc, opt dayOrdRE,
      opt (seqs [star wsc, oneOf ['-', '–'], star wsc, repRange 1 2 digit,
        star wsc, opt dayOrdRE])],
    -- (mon|tue|wed|thu|fri|sat|sun)\w*\s+\d{1,2}              e.g. Friday 21
    seqs [weekdayRE, star wordc, rep1 wsc, repRange 1 2 digit],
    -- \d{1,2}\s*(st|nd|rd|th)\s+(mon|...|sun)\w*
    seqs [repRange 1 2 digit, star wsc, dayOrdRE, rep1 wsc, weekdayRE, star wordc],
    -- 20\d{2}|19\d{2}                                          bare years
    seqs [lit "20", digit, digit],
    seqs [lit "19", digit, digit]]

/-- `ocr._SENTENCE_CHARS`: `[.!?;]`. -/
def sentenceChars : RE := oneOf ['.', '!', '?', ';']

/-- `ocr._MULTI_COMMA`: `,.*,`. -/
def multiComma : RE := seqs [lit1 ',', star dotC, lit1 ',']

/-- `ocr._POSTER_NOISE` (ocr.py lines 46-67), alternative by alternative. -/
def posterNoise : RE :=
  alts [
    seqs [litCI "present", opt (litCI "s")],
    litCI "featuring",
    seqs [litCI "feat", opt (lit1 '.')],
    seqs [litCI "ft", opt (lit1 '.')],
    litCI "with",
    litCI "and more",
    seqs [litCI "ticket", opt (litCI "s")],
    seqs [litCI "buy", rep1 wsc, litCI "now"],
    seqs [litCI "on", rep1 wsc, litCI "sale"],
    seqs [litCI "sold", rep1 wsc, litCI "out"],
    litCI "presale",
    litCI "vip",
    seqs [litCI "general", rep1 wsc, litCI "admission"],
    seqs [litCI "early", rep1 wsc, litCI "bird"],
    seqs [litCI "main", rep1 wsc, litCI "stage"],
    seqs [litCI "stage", star wsc, star digit],
    litCI "tent",
    litCI "arena",
    seqs [litCI "day", star wsc, rep1 digit],
    seqs [litCI "day", rep1 wsc, litCI "one"],
    seqs [litCI "day", rep1 wsc, litCI "two"],
    seqs [litCI "day", rep1 wsc, litCI "three"],
    seqs [litCI "door", opt (litCI "s"), rep1 wsc, litCI "open"],
    seqs [litCI "set", rep1 wsc, litCI "time", opt (litCI "s")],
    litCI "schedule",
    seqs [litCI "line", star wsc, litCI "up"],
    seqs [litCI "sponsored", rep1 wsc, litCI "by"],
    seqs [litCI "presented", rep1 wsc, litCI "by"],
    seqs [litCI "powered", rep1 wsc, litCI "by"],
    seqs [litCI "follow", rep1 wsc, litCI "us"],
    litCI "share",
    litCI "copyright",
    lit "©",
    seqs [litCI "all", rep1 wsc, litCI "rights"],
    litCI "terms",
    litCI "privacy",
    litCI "cookie",
    litCI "info",
    lit "www.",
    lit ".com",
    seqs [litCI "sign", rep1 wsc, litCI "up"],
    litCI "subscribe",
    litCI "newsletter",
    litCI "rsvp",
    seqs [litCI "more", rep1 wsc,
      alts [litCI "info", seqs [litCI "artist", opt (litCI "s")],
        seqs [litCI "act", opt (litCI "s")], litCI "tba", litCI "tbc"]],
    litCI "free",
    seqs [litCI "age", opt (litCI "s"), rep1 wsc, digit],
    seqs [litCI "all", rep1 wsc, litCI "ages"],
    lit "18+",
    lit "21+",
    litCI "parking",
    litCI "camping",
    litCI "lodging",
    litCI "directions",
    litCI "map",
    litCI "food",
    litCI "drink",
    litCI "merch",
    litCI "vendor",
    seqs [litCI "fest", opt (litCI "ival"), opt (seqs [rep1 wsc, repRange 4 4 digit])],
    seqs [litCI "music", rep1 wsc, litCI "festival"],
    seqs [litCI "phase", rep1 wsc, digit],
    litCI "announcement",
    litCI "reveal",
    seqs [rep1 (chr Char.isAlpha), lit1 '.',
      alts [litCI "com", litCI "org", litCI "net", litCI "co", litCI "io", litCI "uk"]],
    seqs [lit1 '#', rep1 wordc]]

/-- Python `text.split()`: maximal whitespace-free runs. -/
def pySplitWs (s : String) : List String :=
  ((s.data.foldr (fun c acc =>
      if Char.isWhitespace c then [] :: acc
      else match acc with
        | [] => [[c]]
        | w :: ws => (c :: w) :: ws) []).filter (fun w => ¬ w.isEmpty)).map
    (fun w => (⟨w⟩ : String))

/-- `ocr._is_ocr_noise` (ocr.py lines 70-114). -/
def isOcrNoise (text0 : String) : Bool :=
  let text := pyStrip text0
  if text.data.isEmpty then true                     -- `if not text`
  else if text.data.length < 2 then true             -- too short
  else if searchEx sentenceChars text then true      -- sentence punctuation
  else if searchEx multiComma text then true         -- multiple commas
  else if text.data.contains ':' then true           -- `":" in text`
  else if reMatch datePattern text then true         -- dates
  else if reMatch posterNoise text then true         -- poster noise
  else if 2 * (text.data.filter Char.isDigit).length > text.data.length then true
       -- `digit_count > len(text) * 0.5`
  else if (pySplitWs text).length > 6 then true      -- more than 6 words
  else if (text.data.filter Char.isAlpha).length < 2 then true
  else false

end Ocr

/-! ## ocr.py: the fuzzy MusicBrainz validator -/

/-- A ranked search candidate as read by `_validate_artist_musicbrainz`:
`artist.get("name", "")` and `artist.get("score", 0)` (a 0-100 integer). -/
structure MBCand where
  name : String
  score : Nat
deriving DecidableEq, Repr

/-- `ocr._fuzzy_match` (ocr.py lines 195-205): reject when the lengths differ
by more than 2; otherwise count the length difference plus the position-wise
mismatches of the zipped strings and accept when the total is at most 2. -/
def fuzzyMatch (a b : String) : Bool :=
  -- `if abs(len(a) - len(b)) > 2: return False`
  if max a.data.length b.data.length - min a.data.length b.data.length > 2 then false
  else
    -- `shorter, longer = (a, b) if len(a) <= len(b) else (b, a)`
    let p := if a.data.length ≤ b.data.length then (a, b) else (b, a)
    let diffs := (p.2.data.length - p.1.data.length)
      + (p.1.data.zip p.2.data).countP (fun q => q.1 != q.2)
    diffs ≤ 2

/-- One iteration of the candidate loop of `_validate_artist_musicbrainz`
(ocr.py lines 178-188), for a query already lowered/stripped: accept on
score ≥ 90 with case/whitespace-insensitive equality, or score ≥ 80 with
that equality or the fuzzy check. -/
def acceptCand (nameLower : String) (c : MBCand) : Bool :=
  let mbL := pyStrip (pyLower c.name)
  (decide (90 ≤ c.score) && decide (mbL = nameLower))
  || (decide (80 ≤ c.score)
      && (decide (mbL = nameLower) || fuzzyMatch nameLower mbL))

/-- A search-endpoint response as seen by `_validate_artist_musicbrainz`:
an HTTP 200 with parsed candidates, another status code, or a raised
exception (transport failure, timeout, bad JSON). -/
inductive MBResp where
  | ok : List MBCand → MBResp
  | code : Nat → MBResp
  | exn : MBResp
deriving DecidableEq, Repr

/-- `ocr._validate_artist_musicbrainz` (ocr.py lines 153-192) over an explicit
response trace (`svc r` answers the request made with `_retries = r`).
The Python `_retries` counter, bounded by the guard `_retries < 3`, is
represented by the number of retries still allowed, `left = 3 - _retries`,
which makes the recursion structural; a 503 with no retries left falls
through to the `status_code != 200` check and yields `None`, exactly as in
the source. -/
def validateArtistMBAux (svc : Nat → MBResp) (name : String) :
    Nat → Nat → Option String
  | 0, r =>
      -- `_retries = 3`: a 503 no longer retries and, like every other
      -- non-200 status, falls through to `if resp.status_code != 200: None`
      match svc r with
      | .exn => none
      | .code _ => none
      | .ok artists =>
          if artists.isEmpty then none
          else (artists.find? (acceptCand (pyStrip (pyLower name)))).map (·.name)
  | left + 1, r =>
      match svc r with
      | .exn => none
      | .code c =>
          if c = 503 then validateArtistMBAux svc name left (r + 1) else none
      | .ok artists =>
          if artists.isEmpty then none
          else (artists.find? (acceptCand (pyStrip (pyLower name)))).map (·.name)

/-- `_validate_artist_musicbrainz(name)`: entered with `_retries = 0`,
hence 3 retries allowed. -/
def validateArtistMB (svc : Nat → MBResp) (name : String) : Option String :=
  validateArtistMBAux svc name 3 0

/-! ## classifier.py: the MusicBrainz search client -/

/-- A search hit as read by `classify_artist`: only `artist.get("id")`
matters downstream (`none` models a missing key, `some ""` a falsy empty
id). -/
structure MBArtist where
  id : Option String
deriving DecidableEq, Repr

/-- A response as seen by `classifier._search_artist`: an HTTP 200 with a
parsed artist list, an HTTP 503, or another error status (which
`raise_for_status` turns into an exception). -/
inductive SResp where
  | ok : List MBArtist → SResp
  | unavailable : SResp
  | err : SResp
deriving DecidableEq, Repr

/-- The outcome of one `_search_artist` call: the returned
`artists[0] if artists else None`, or a propagated exception. -/
inductive SOut where
  | found : Option MBArtist → SOut
  | raised : SOut
deriving DecidableEq, Repr

/-- `classifier._search_artist` (classifier.py lines 30-43) over a response
trace, instrumented with fuel.  The source retries a 503 by plain recursion
(`time.sleep(2); return _search_artist(name)`) with NO attempt counter, so
the embedding spends one unit of fuel per recursion unfolding: a result of
`none` means the call has not returned within that many unfoldings. -/
def searchArtistFuel (svc : Nat → SResp) : Nat → Nat → Option SOut
  | 0, _ => none
  | fuel + 1, attempt =>
      match svc attempt with
      | .unavailable => searchArtistFuel svc fuel (attempt + 1)
      | .err => some .raised
      | .ok artists => some (.found artists.head?)

/-! ## Python's stable `list.sort(key=..., reverse=True)`

A stable descending sort by a key is the same function as sorting the
position-enumerated list by (key descending, original position ascending),
which is a total order, so we embed it that way. -/

/-- Order by key descending, breaking ties by original position ascending. -/
def descRel {α β : Type} [LinearOrder β] (key : α → β) :
    (Nat × α) → (Nat × α) → Prop :=
  fun a b => key b.2 < key a.2 ∨ (key a.2 = key b.2 ∧ a.1 ≤ b.1)

instance descRel_decidable {α β : Type} [LinearOrder β] {key : α → β} :
    DecidableRel (descRel key) :=
  fun a b => by unfold descRel; exact inferInstance

instance descRel_total {α β : Type} [LinearOrder β] {key : α → β} :
    IsTotal (Nat × α) (descRel key) := by
  constructor
  intro a b
  rcases lt_trichotomy (key a.2) (key b.2) with h | h | h
  · exact Or.inr (Or.inl h)
  · rcases Nat.le_total a.1 b.1 with h2 | h2
    · exact Or.inl (Or.inr ⟨h, h2⟩)
    · exact Or.inr (Or.inr ⟨h.symm, h2⟩)
  · exact Or.inl (Or.inl h)

instance descRel_trans {α β : Type} [LinearOrder β] {key : α → β} :
    IsTrans (Nat × α) (descRel key) := by
  constructor
  rintro a b c (h1 | ⟨he1, hle1⟩) (h2 | ⟨he2, hle2⟩)
  · exact Or.inl (lt_trans h2 h1)
  · exact Or.inl (he2 ▸ h1)
  · exact Or.inl (he1 ▸ h2)
  · exact Or.inr ⟨he1.trans he2, le_trans hle1 hle2⟩

/-- The enumerated stable descending sort (kept unprojected so that order and
stability can be stated about it). -/
def stableSortByDescEnum {α β : Type} [LinearOrder β] (key : α → β)
    (l : List α) : List (Nat × α) :=
  l.enum.insertionSort (descRel key)

/-- Python `l.sort(key=key, reverse=True)` (stable). -/
def stableSortByDesc {α β : Type} [LinearOrder β] (key : α → β)
    (l : List α) : List α :=
  (stableSortByDescEnum key l).map (·.2)

/-! ## classifier.py: tag processing and batch classification -/

/-- A raw MusicBrainz tag: `{"name": ..., "count": ...}`. -/
structure MBTag where
  name : String
  count : Nat
deriving DecidableEq, Repr

/-- The pure tail of `classifier._get_artist_tags` (lines 60-63): sort by
count descending (Python's stable sort), keep positive-count tags, lowercase
their names. -/
def getArtistTagsPure (rawTags : List MBTag) : List String :=
  let sorted := stableSortByDesc (fun t => t.count) rawTags
  (sorted.filter (fun t => 0 < t.count)).map (fun t => pyLower t.name)

/-- `classifier._NON_GENRE_PATTERN` (lines 69-83), case-sensitive (compiled
without `(?i)`), transcribed alternative by alternative. -/
def nonGenrePattern : RE :=
  RE.alts ([
    RE.seqs [RE.digit, RE.digit, RE.digit, RE.digit, RE.opt (RE.lit1 's')]] ++
    (["american", "british", "english", "irish", "scottish", "welsh",
      "australian", "canadian",
      "french", "german", "italian", "spanish", "dutch", "swedish",
      "norwegian", "danish", "finnish",
      "japanese", "korean", "chinese", "brazilian", "mexican", "colombian",
      "argentine",
      "african", "nigerian", "south african", "jamaican", "cuban",
      "puerto rican",
      "indian", "russian", "polish", "belgian", "austrian", "swiss",
      "portuguese", "icelandic",
      "new zealand"].map RE.lit) ++
    [RE.seqs [RE.lit "male vocalist", RE.opt (RE.lit1 's')],
     RE.seqs [RE.lit "female vocalist", RE.opt (RE.lit1 's')],
     RE.lit "seen live",
     RE.seqs [RE.lit "favorite", RE.opt (RE.lit1 's')],
     RE.seqs [RE.lit "favourite", RE.opt (RE.lit1 's')],
     RE.seqs [RE.lit "under ", RE.rep1 RE.digit],
     RE.lit "spotify",
     RE.seqs [RE.rep1 RE.digit, RE.lit1 's']])

/-- `classifier._tags_to_genres` (lines 86-93). -/
def tagsToGenres (tags : List String) : List String :=
  if tags.isEmpty then ["unknown"]
  else
    let filtered := tags.filter (fun t => !(RE.reMatch nonGenrePattern t))
    if filtered.isEmpty then tags.take 3 else filtered.take 3

/-- `classifier.TIMBRE_MAP` (lines 12-27), in source order. -/
def TIMBRE_MAP : List (String × List String) := [
  ("energetic", ["punk", "hardcore", "metal", "thrash", "power metal",
    "hard rock", "drum and bass", "gabber"]),
  ("chill", ["ambient", "chillout", "lo-fi", "downtempo", "trip-hop",
    "lounge", "new age", "easy listening"]),
  ("dark", ["gothic", "darkwave", "doom", "black metal", "death metal",
    "industrial", "dark ambient", "witch house"]),
  ("dreamy", ["shoegaze", "dream pop", "ethereal", "ambient pop",
    "slowcore", "chamber pop"]),
  ("groovy", ["funk", "disco", "house", "soul", "groove", "dancehall",
    "afrobeat", "boogie"]),
  ("melodic", ["pop", "singer-songwriter", "folk", "baroque pop",
    "power pop", "indie pop", "soft rock"]),
  ("heavy", ["metal", "sludge", "stoner rock", "grunge", "noise rock",
    "post-metal", "djent"]),
  ("atmospheric", ["post-rock", "ambient", "shoegaze", "space rock",
    "drone", "ethereal wave"]),
  ("raw", ["garage rock", "punk", "lo-fi", "noise", "grindcore",
    "crust punk", "post-punk"]),
  ("experimental", ["avant-garde", "experimental", "noise", "art rock",
    "free jazz", "musique concrète"]),
  ("smooth", ["r&b", "soul", "jazz", "smooth jazz", "neo soul",
    "quiet storm", "bossa nova"]),
  ("uplifting", ["trance", "euphoric", "gospel", "reggae", "ska",
    "happy hardcore"]),
  ("electronic", ["electronic", "techno", "house", "edm", "synth",
    "electro", "idm", "dubstep"]),
  ("acoustic", ["acoustic", "folk", "unplugged", "bluegrass", "country",
    "americana"])]

/-- Python `needle in hay` on strings: substring containment. -/
def pyContains (hay needle : String) : Bool :=
  hay.data.tails.any (fun t => needle.data.isPrefixOf t)

/-- The descriptor loop of `_tags_to_timbre` (lines 101-109): emit a
descriptor when any of its keywords is a member of the tag set or a
substring of some tag, stopping once four descriptors are collected. -/
def timbreWalk (tags : List String) :
    List (String × List String) → List String → List String
  | [], acc => acc
  | (descriptor, keywords) :: rest, acc =>
      let acc' := if keywords.any (fun kw =>
          tags.contains kw || tags.any (fun t => pyContains t kw))
        then acc ++ [descriptor] else acc
      if 4 ≤ acc'.length then acc' else timbreWalk tags rest acc'

/-- `classifier._tags_to_timbre` (lines 96-113). -/
def tagsToTimbre (tags : List String) : List String :=
  if tags.isEmpty then ["unknown"]
  else
    let descriptors := timbreWalk tags TIMBRE_MAP []
    if descriptors.isEmpty then ["dynamic"] else descriptors

/-- A request sent to the metadata service. -/
inductive Request where
  | search : String → Request
  | tags : String → Request
deriving DecidableEq, Repr

def Request.isSearchReq : Request → Bool
  | .search _ => true
  | _ => false

def Request.isTagsReq : Request → Bool
  | .tags _ => true
  | _ => false

/-- A pure metadata service: the regime of C6 and C9, where no request
answers 503 and none raises (each search yields a parsed top hit or nothing,
each tag fetch yields a parsed tag list). -/
structure MBService where
  search : String → Option MBArtist
  tags : String → List MBTag

/-- `classifier.classify_artist` (lines 116-130) against a pure service,
paired with the trace of service requests it issues.  A missing or falsy
(empty) id short-circuits to the unknown sentinel after the single search
request; otherwise one tag request follows. -/
def classifyArtistT (svc : MBService) (name : String) :
    Classification × List Request :=
  match svc.search name with
  | none => (⟨["unknown"], ["unknown"]⟩, [.search name])
  | some artist =>
      match artist.id with
      | none => (⟨["unknown"], ["unknown"]⟩, [.search name])
      | some id =>
          if id = "" then (⟨["unknown"], ["unknown"]⟩, [.search name])
          else
            let tags := getArtistTagsPure (svc.tags id)
            (⟨tagsToGenres tags, tagsToTimbre tags⟩, [.search name, .tags id])

/-- Python dict assignment `classifications[name] = result`. -/
def dictInsert {α : Type} (l : List (String × α)) (k : String) (v : α) :
    List (String × α) :=
  if (alistLookup l k).isSome then alistUpdate l k v else l ++ [(k, v)]

/-- One iteration of the `classify_batch` loop (classifier.py lines 142-160):
skip a name whose normalized key is stored with a non-empty, non-unknown
genre list, otherwise classify it and record the requests.  (With a pure
service the `except` branch that downgrades a raised classification to the
unknown sentinel is unreachable.) -/
def classifyBatchStep (svc : MBService) (existing : Store)
    (acc : List (String × Classification) × List Request) (name : String) :
    List (String × Classification) × List Request :=
  let key := normalizeName name  -- `key = name.strip().lower()`
  let skip : Bool :=
    match alistLookup existing.artists key with
    | some a => decide (a.genres ≠ []) && decide (a.genres ≠ ["unknown"])
    | none => false
  if skip then acc
  else
    let r := classifyArtistT svc name
    (dictInsert acc.1 name r.1, acc.2 ++ r.2)

/-- `classifier.classify_batch` (lines 133-161) against a pure service:
the classifications mapping it returns and the full request trace. -/
def classifyBatchT (svc : MBService) (names : List String) (existing : Store) :
    List (String × Classification) × List Request :=
  names.foldl (classifyBatchStep svc existing) ([], [])

/-- The shape invariant of C9: a non-empty genre list of at most 3 entries
and a non-empty timbre list of at most 4. -/
def wellFormedClassification (c : Classification) : Prop :=
  c.genres ≠ [] ∧ c.genres.length ≤ 3 ∧ c.timbre ≠ [] ∧ c.timbre.length ≤ 4

/-! ## app.py: name normalization (`_clean_artist_names`) -/

/-- Try to match `\s*[Bb]2[Bb]\s*` at the head of the text; on success return
what follows the match.  Greedy whitespace is committed since `\s` and
`[Bb2]` are disjoint character classes. -/
def matchB2BAt (cs : List Char) : Option (List Char) :=
  match cs.dropWhile Char.isWhitespace with
  | b1 :: '2' :: b2 :: rest =>
      if (b1 = 'b' ∨ b1 = 'B') ∧ (b2 = 'b' ∨ b2 = 'B') then
        some (rest.dropWhile Char.isWhitespace)
      else none
  | _ => none

/-- `re.split(r'\s*[Bb]2[Bb]\s*', ·)`: scan left to right for the leftmost
match, split, continue after it.  `fuel` (instantiated with the text length,
an upper bound on the scan steps) makes the recursion structural. -/
def splitB2BAux : Nat → List Char → List Char → List (List Char)
  | _, [], acc => [acc.reverse]
  | 0, cs, acc => [acc.reverse ++ cs]
  | fuel + 1, c :: cs, acc =>
      match matchB2BAt (c :: cs) with
      | some rest => acc.reverse :: splitB2BAux fuel rest []
      | none => splitB2BAux fuel cs (c :: acc)

def pySplitB2B (s : String) : List String :=
  (splitB2BAux s.data.length s.data []).map (fun cs => (⟨cs⟩ : String))

/-- Try to match `\s*\([^)]*\)` at the head of the text; on success return
what follows the closing parenthesis. -/
def matchParenAt (cs : List Char) : Option (List Char) :=
  match cs.dropWhile Char.isWhitespace with
  | '(' :: rest =>
      match rest.dropWhile (fun c => c ≠ ')') with
      | ')' :: rest2 => some rest2
      | _ => none
  | _ => none

/-- `re.sub(r'\s*\([^)]*\)', '', ·)`: delete every (non-overlapping,
leftmost-first) parenthesized group together with the whitespace before it. -/
def stripParensAux : Nat → List Char → List Char
  | _, [] => []
  | 0, cs => cs
  | fuel + 1, c :: cs =>
      match matchParenAt (c :: cs) with
      | some rest => stripParensAux fuel rest
      | none => c :: stripParensAux fuel cs

def pyStripParens (s : String) : String := ⟨stripParensAux s.data.length s.data⟩

/-- The case-insensitive order-preserving dedup at the end of
`_clean_artist_names` (app.py lines 32-38): `seen` accumulates lowercased
keys. -/
def dedupCIAux : List String → List String → List String
  | [], _ => []
  | x :: xs, seen =>
      if seen.contains (pyLower x) then dedupCIAux xs seen
      else x :: dedupCIAux xs (pyLower x :: seen)

/-- `app._clean_artist_names` (app.py lines 20-39): split each name on the
B2B marker, strip parenthesized text and surrounding whitespace from each
piece, drop empties, then deduplicate case-insensitively preserving
first-seen order and casing. -/
def cleanArtistNames (names : List String) : List String :=
  let cleaned := (names.map (fun name =>
      (pySplitB2B name).filterMap (fun part =>
        let p := pyStrip (pyStripParens part)
        if p = "" then none else some p))).flatten
  dedupCIAux cleaned []

/-! ## app.py: the cosine-similarity recommender (`_find_similar_artists`) -/

/-- The vocabulary of `_find_similar_artists` (app.py lines 311-318):
every distinct genre/timbre tag of every artist, minus the `"unknown"`
sentinel, sorted ascending (`sorted(all_tags)` over a set). -/
def buildVocab (allArtists : List (String × ArtistRec)) : List String :=
  let allTags := (allArtists.map (fun p => p.2.genres ++ p.2.timbre)).flatten
  ((allTags.dedup).filter (fun t => t ≠ "unknown")).insertionSort (· ≤ ·)

/-- `to_vector` (app.py lines 321-329): the 0/1 vector over the vocabulary.
The source writes 1 at `tag_to_idx[g]` for every genre/timbre tag found in
the vocabulary; since the vocabulary entries are distinct this is the
membership indicator per vocabulary slot. -/
def toVector (vocab : List String) (artist : ArtistRec) : List Nat :=
  vocab.map (fun t => if t ∈ artist.genres ∨ t ∈ artist.timbre then 1 else 0)

def dotN (a b : List Nat) : Nat := ((a.zip b).map (fun p => p.1 * p.2)).sum

def magSq (a : List Nat) : Nat := (a.map (fun x => x * x)).sum

/-- `cosine_sim` (app.py lines 331-337), compared via squares: the vectors
are 0/1, so `dot ≥ 0` and comparing `dot² / (|a|²·|b|²)` orders pairs exactly
as the float `dot / (√|a|²·√|b|²)` does; a zero magnitude yields 0 without
any division (Lean's `/` is total, mirroring the explicit guard in the
source). -/
def cosineSimSq (a b : List Nat) : ℚ :=
  if magSq a = 0 ∨ magSq b = 0 then 0
  else (dotN a b : ℚ) ^ 2 / ((magSq a : ℚ) * (magSq b : ℚ))

/-- The `scored` list (app.py lines 342-349): every artist except the
target's own key and artists whose genres are exactly `["unknown"]`, paired
with its similarity to the target, in dict-iteration order. -/
def scoredSimilar (target : ArtistRec)
    (allArtists : List (String × ArtistRec)) : List (ℚ × ArtistRec) :=
  let vocab := buildVocab allArtists
  let targetVec := toVector vocab target
  let targetKey := pyLower target.name
  (allArtists.filter (fun p =>
      decide (p.1 ≠ targetKey) && decide (p.2.genres ≠ ["unknown"]))).map
    (fun p => (cosineSimSq targetVec (toVector vocab p.2), p.2))

/-- `scored.sort(key=lambda x: x[0], reverse=True)` in its stable enumerated
form: similarity descending, ties by original position. -/
def rankedSimilar (target : ArtistRec)
    (allArtists : List (String × ArtistRec)) : List (Nat × (ℚ × ArtistRec)) :=
  stableSortByDescEnum (fun p => p.1) (scoredSimilar target allArtists)

/-- `app._find_similar_artists` (app.py lines 308-352). -/
def findSimilarArtists (target : ArtistRec)
    (allArtists : List (String × ArtistRec)) (k : Nat) : List ArtistRec :=
  if buildVocab allArtists = [] then []
  else (((rankedSimilar target allArtists).map (·.2)).take k).map (·.2)

/-! ### Association-list lemmas -/

theorem alistLookup_append {α : Type} (l₁ l₂ : List (String × α)) (k : String) :
    alistLookup (l₁ ++ l₂) k =
      match alistLookup l₁ k with
      | some v => some v
      | none => alistLookup l₂ k := by
  induction l₁ with
  | nil => simp [alistLookup]
  | cons p rest ih =>
      obtain ⟨k', v⟩ := p
      by_cases h : k' = k <;> simp [alistLookup, h, ih]

theorem alistUpdate_length {α : Type} (l : List (String × α)) (k : String) (v : α) :
    (alistUpdate l k v).length = l.length := by
  simp [alistUpdate]

theorem alistLookup_update {α : Type} (l : List (String × α)) (k k' : String) (v : α) :
    alistLookup (alistUpdate l k v) k' =
      if k = k' then (alistLookup l k').map (fun _ => v) else alistLookup l k' := by
  induction l with
  | nil => by_cases h : k = k' <;> simp [alistLookup, alistUpdate, h]
  | cons p rest ih =>
      obtain ⟨k₀, v₀⟩ := p
      simp only [alistUpdate, List.map_cons] at ih ⊢
      by_cases h1 : k₀ = k
      · subst h1
        rw [if_pos rfl]
        by_cases hk : k₀ = k'
        · simp [alistLookup, hk]
        · simp [alistLookup, hk, ih]
      · rw [if_neg h1]
        by_cases hk : k = k'
        · subst hk
          simp [alistLookup, h1, ih]
        · by_cases h2 : k₀ = k' <;> simp [alistLookup, h2, hk, ih]

theorem alistLookup_isSome_update {α : Type} (l : List (String × α))
    (k k' : String) (v : α) :
    (alistLookup (alistUpdate l k v) k').isSome = (alistLookup l k').isSome := by
  rw [alistLookup_update]
  by_cases h : k = k'
  · subst h; cases alistLookup l k <;> simp
  · simp [h]

/-! ### Structural lemmas about `mergeStep` and `mergeArtists` -/

theorem mergeExistingArtist_festivals (c : Classification) (fi : FestivalInfo)
    (now : String) (a : ArtistRec) :
    (mergeExistingArtist c fi now a).festivals =
      if fi.url ∈ a.festivals.map (·.url) then a.festivals
      else a.festivals ++ [⟨fi.name, fi.url, now⟩] := by
  unfold mergeExistingArtist
  split <;> split <;> simp

theorem mergeExistingArtist_url_mem (c : Classification) (fi : FestivalInfo)
    (now : String) (a : ArtistRec) :
    fi.url ∈ (mergeExistingArtist c fi now a).festivals.map (·.url) := by
  rw [mergeExistingArtist_festivals]
  split
  · assumption
  · simp

theorem mergeExistingArtist_genres (c : Classification) (fi : FestivalInfo)
    (now : String) (a : ArtistRec) :
    (mergeExistingArtist c fi now a).genres =
      if c.genres ≠ [] then c.genres else a.genres := by
  unfold mergeExistingArtist
  split <;> split <;> simp

theorem mergeStep_lookup_some (cls : List (String × Classification)) (fi : FestivalInfo)
    (now : String) (s : Store) (name : String) (a : ArtistRec)
    (h : alistLookup s.artists (normalizeName name) = some a) (k : String) :
    alistLookup (mergeStep cls fi now s name).artists k =
      if normalizeName name = k then
        some (mergeExistingArtist ((alistLookup cls name).getD ⟨[], []⟩) fi now a)
      else alistLookup s.artists k := by
  simp only [mergeStep, h]
  rw [alistLookup_update]
  by_cases hk : normalizeName name = k
  · rw [if_pos hk, if_pos hk, ← hk, h]
    rfl
  · rw [if_neg hk, if_neg hk]

theorem mergeStep_lookup_none (cls : List (String × Classification)) (fi : FestivalInfo)
    (now : String) (s : Store) (name : String)
    (h : alistLookup s.artists (normalizeName name) = none) (k : String) :
    alistLookup (mergeStep cls fi now s name).artists k =
      if normalizeName name = k then
        some ⟨name, ((alistLookup cls name).getD ⟨[], []⟩).genres,
              ((alistLookup cls name).getD ⟨[], []⟩).timbre,
              [⟨fi.name, fi.url, now⟩], now, now⟩
      else alistLookup s.artists k := by
  simp only [mergeStep, h]
  rw [alistLookup_append]
  by_cases hk : normalizeName name = k
  · rw [if_pos hk, ← hk, h]
    simp [alistLookup]
  · rw [if_neg hk]
    cases h2 : alistLookup s.artists k
    · simp [alistLookup, hk]
    · rfl

theorem mergeStep_festivals (cls : List (String × Classification)) (fi : FestivalInfo)
    (now : String) (s : Store) (name : String) :
    (mergeStep cls fi now s name).festivals = s.festivals := by
  cases h : alistLookup s.artists (normalizeName name) <;>
    simp only [mergeStep, h]

theorem mergeStep_isSome_self (cls : List (String × Classification)) (fi : FestivalInfo)
    (now : String) (s : Store) (name : String) :
    (alistLookup (mergeStep cls fi now s name).artists (normalizeName name)).isSome := by
  cases h : alistLookup s.artists (normalizeName name) with
  | none => simp [mergeStep, h, alistLookup_append, alistLookup]
  | some a => simp [mergeStep, h, alistLookup_update]

theorem mergeStep_isSome_mono (cls : List (String × Classification)) (fi : FestivalInfo)
    (now : String) (s : Store) (name k : String)
    (hs : (alistLookup s.artists k).isSome) :
    (alistLookup (mergeStep cls fi now s name).artists k).isSome := by
  cases h : alistLookup s.artists (normalizeName name) with
  | none =>
      simp only [mergeStep, h]
      rw [alistLookup_append]
      cases h2 : alistLookup s.artists k <;> simp_all
  | some a =>
      simp only [mergeStep, h]
      rw [alistLookup_isSome_update]
      exact hs

theorem mergeStep_length_of_isSome (cls : List (String × Classification)) (fi : FestivalInfo)
    (now : String) (s : Store) (name : String)
    (hs : (alistLookup s.artists (normalizeName name)).isSome) :
    (mergeStep cls fi now s name).artists.length = s.artists.length := by
  cases h : alistLookup s.artists (normalizeName name) with
  | none => rw [h] at hs; simp at hs
  | some a => simp [mergeStep, h, alistUpdate_length]

theorem foldl_mergeStep_festivals (cls : List (String × Classification)) (fi : FestivalInfo)
    (now : String) (l : List String) (s : Store) :
    (l.foldl (mergeStep cls fi now) s).festivals = s.festivals := by
  induction l generalizing s with
  | nil => rfl
  | cons n rest ih => rw [List.foldl_cons, ih, mergeStep_festivals]

theorem foldl_mergeStep_isSome_mono (cls : List (String × Classification)) (fi : FestivalInfo)
    (now : String) (l : List String) (s : Store) (k : String)
    (hs : (alistLookup s.artists k).isSome) :
    (alistLookup (l.foldl (mergeStep cls fi now) s).artists k).isSome := by
  induction l generalizing s with
  | nil => exact hs
  | cons n rest ih =>
      rw [List.foldl_cons]
      exact ih _ (mergeStep_isSome_mono cls fi now s n k hs)

theorem foldl_mergeStep_has_keys (cls : List (String × Classification)) (fi : FestivalInfo)
    (now : String) (l : List String) (s : Store) :
    ∀ name ∈ l,
      (alistLookup (l.foldl (mergeStep cls fi now) s).artists (normalizeName name)).isSome := by
  induction l generalizing s with
  | nil => intro name h; cases h
  | cons n rest ih =>
      intro name hmem
      rw [List.foldl_cons]
      rcases List.mem_cons.mp hmem with h | h
      · subst h
        exact foldl_mergeStep_isSome_mono cls fi now rest _ _
          (mergeStep_isSome_self cls fi now s name)
      · exact ih _ name h

theorem foldl_mergeStep_length (cls : List (String × Classification)) (fi : FestivalInfo)
    (now : String) (l : List String) (s : Store)
    (h : ∀ name ∈ l, (alistLookup s.artists (normalizeName name)).isSome) :
    (l.foldl (mergeStep cls fi now) s).artists.length = s.artists.length := by
  induction l generalizing s with
  | nil => rfl
  | cons n rest ih =>
      rw [List.foldl_cons,
        ih _ (fun name hm =>
          mergeStep_isSome_mono cls fi now s n _ (h name (List.mem_cons_of_mem _ hm)))]
      exact mergeStep_length_of_isSome cls fi now s n (h n (List.mem_cons_self _ _))

theorem mergeArtists_url_mem (data : Store) (names : List String)
    (cls : List (String × Classification)) (fi : FestivalInfo) (now : String) :
    fi.url ∈ (mergeArtists data names cls fi now).festivals.map (·.url) := by
  unfold mergeArtists
  rw [foldl_mergeStep_festivals]
  by_cases h : data.festivals.any (fun f => f.url = fi.url)
  · rw [if_pos h]
    obtain ⟨f, hf, hurl⟩ := List.any_eq_true.mp h
    exact List.mem_map.mpr ⟨f, hf, (of_decide_eq_true hurl).symm ▸ rfl⟩
  · rw [if_neg h]
    simp

theorem mergeStep_url_invariant (cls : List (String × Classification)) (fi : FestivalInfo)
    (now : String) (s : Store) (name k : String)
    (h : ∀ a, alistLookup s.artists k = some a → fi.url ∈ a.festivals.map (·.url)) :
    ∀ a, alistLookup (mergeStep cls fi now s name).artists k = some a →
      fi.url ∈ a.festivals.map (·.url) := by
  intro a ha
  cases h0 : alistLookup s.artists (normalizeName name) with
  | some a0 =>
      rw [mergeStep_lookup_some cls fi now s name a0 h0 k] at ha
      by_cases hk : normalizeName name = k
      · rw [if_pos hk] at ha
        cases ha
        exact mergeExistingArtist_url_mem _ fi now a0
      · rw [if_neg hk] at ha
        exact h a ha
  | none =>
      rw [mergeStep_lookup_none cls fi now s name h0 k] at ha
      by_cases hk : normalizeName name = k
      · rw [if_pos hk] at ha
        cases ha
        simp
      · rw [if_neg hk] at ha
        exact h a ha

theorem mergeStep_url_self (cls : List (String × Classification)) (fi : FestivalInfo)
    (now : String) (s : Store) (name : String) :
    ∀ a, alistLookup (mergeStep cls fi now s name).artists (normalizeName name) = some a →
      fi.url ∈ a.festivals.map (·.url) := by
  intro a ha
  cases h0 : alistLookup s.artists (normalizeName name) with
  | some a0 =>
      rw [mergeStep_lookup_some cls fi now s name a0 h0 _, if_pos rfl] at ha
      cases ha
      exact mergeExistingArtist_url_mem _ fi now a0
  | none =>
      rw [mergeStep_lookup_none cls fi now s name h0 _, if_pos rfl] at ha
      cases ha
      simp

theorem foldl_mergeStep_url_invariant (cls : List (String × Classification))
    (fi : FestivalInfo) (now : String) (l : List String) (s : Store) (k : String)
    (h : ∀ a, alistLookup s.artists k = some a → fi.url ∈ a.festivals.map (·.url)) :
    ∀ a, alistLookup (l.foldl (mergeStep cls fi now) s).artists k = some a →
      fi.url ∈ a.festivals.map (·.url) := by
  induction l generalizing s with
  | nil => exact h
  | cons n rest ih =>
      rw [List.foldl_cons]
      exact ih _ (mergeStep_url_invariant cls fi now s n k h)

theorem foldl_mergeStep_url_self (cls : List (String × Classification))
    (fi : FestivalInfo) (now : String) (l : List String) (s : Store) :
    ∀ name ∈ l, ∀ a,
      alistLookup (l.foldl (mergeStep cls fi now) s).artists (normalizeName name) = some a →
      fi.url ∈ a.festivals.map (·.url) := by
  induction l generalizing s with
  | nil => intro name h; cases h
  | cons n rest ih =>
      intro name hmem
      rw [List.foldl_cons]
      rcases List.mem_cons.mp hmem with h | h
      · subst h
        exact foldl_mergeStep_url_invariant cls fi now rest _ _
          (mergeStep_url_self cls fi now s name)
      · exact ih _ name h

/-- If every name of the batch already resolves to an artist that carries the
festival url, one more `mergeStep` pass leaves each stored artist's festival
list untouched. -/
theorem mergeStep_preserves_festivals (cls : List (String × Classification))
    (fi : FestivalInfo) (now : String) (s : Store) (name : String)
    (hs : (alistLookup s.artists (normalizeName name)).isSome)
    (hurl : ∀ a, alistLookup s.artists (normalizeName name) = some a →
      fi.url ∈ a.festivals.map (·.url)) (k : String) :
    (alistLookup (mergeStep cls fi now s name).artists k).map (·.festivals)
      = (alistLookup s.artists k).map (·.festivals) := by
  cases h0 : alistLookup s.artists (normalizeName name) with
  | none => rw [h0] at hs; simp at hs
  | some a0 =>
      rw [mergeStep_lookup_some cls fi now s name a0 h0 k]
      by_cases hk : normalizeName name = k
      · rw [if_pos hk, ← hk, h0, Option.map_some', Option.map_some',
          mergeExistingArtist_festivals, if_pos (hurl a0 h0)]
      · rw [if_neg hk]

theorem foldl_mergeStep_preserves_festivals (cls : List (String × Classification))
    (fi : FestivalInfo) (now : String) (l : List String) (s : Store)
    (h : ∀ name ∈ l, (alistLookup s.artists (normalizeName name)).isSome ∧
      ∀ a, alistLookup s.artists (normalizeName name) = some a →
        fi.url ∈ a.festivals.map (·.url)) (k : String) :
    (alistLookup (l.foldl (mergeStep cls fi now) s).artists k).map (·.festivals)
      = (alistLookup s.artists k).map (·.festivals) := by
  induction l generalizing s with
  | nil => rfl
  | cons n rest ih =>
      rw [List.foldl_cons]
      have hstep : ∀ k', (alistLookup (mergeStep cls fi now s n).artists k').map (·.festivals)
          = (alistLookup s.artists k').map (·.festivals) :=
        fun k' => mergeStep_preserves_festivals cls fi now s n
          (h n (List.mem_cons_self _ _)).1 (h n (List.mem_cons_self _ _)).2 k'
      rw [ih _ ?_, hstep k]
      intro name hm
      have hold := h name (List.mem_cons_of_mem _ hm)
      constructor
      · have hmap := hstep (normalizeName name)
        have hsome : (alistLookup (mergeStep cls fi now s n).artists (normalizeName name)).isSome
            = (alistLookup s.artists (normalizeName name)).isSome := by
          cases h1 : alistLookup (mergeStep cls fi now s n).artists (normalizeName name) <;>
            cases h2 : alistLookup s.artists (normalizeName name) <;>
              rw [h1, h2] at hmap <;> first | rfl | simp at hmap
        rw [hsome]
        exact hold.1
      · intro a ha
        have hmap := hstep (normalizeName name)
        rw [ha] at hmap
        cases h2 : alistLookup s.artists (normalizeName name) with
        | none => rw [h2] at hmap; simp at hmap
        | some b =>
            rw [h2] at hmap
            simp only [Option.map_some', Option.some.injEq] at hmap
            rw [hmap]
            exact hold.2 b h2

theorem mergeStep_artists_eq (cls : List (String × Classification)) (fi : FestivalInfo)
    (now : String) (s s' : Store) (name : String) (h : s.artists = s'.artists) :
    (mergeStep cls fi now s name).artists = (mergeStep cls fi now s' name).artists := by
  simp only [mergeStep]
  rw [h]
  cases alistLookup s'.artists (normalizeName name) <;> rfl

theorem mergeArtists_of_url_mem (data : Store) (names : List String)
    (cls : List (String × Classification)) (fi : FestivalInfo) (now : String)
    (h : fi.url ∈ data.festivals.map (·.url)) :
    mergeArtists data names cls fi now = names.foldl (mergeStep cls fi now) data := by
  obtain ⟨f, hf, hfu⟩ := List.mem_map.mp h
  have hany : data.festivals.any (fun f => f.url = fi.url) = true :=
    List.any_eq_true.mpr ⟨f, hf, decide_eq_true hfu⟩
  simp [mergeArtists, hany]

/-! ## Claim theorems about storage.py -/

/-- C1 (counterexample): merging a batch that classifies a known artist as
`{"genres": ["unknown"], "timbre": ["unknown"]}` does NOT leave the stored
genres unchanged.  Before the merge, "artist a" has genres `["rock"]`
(a real, non-unknown value); after the merge, its genres are `["unknown"]`:
the check `if classification["genres"]:` in `merge_artists` accepts the
non-empty list `["unknown"]` and overwrites. -/
theorem c1_unknown_overwrites_counterexample :
    ((alistLookup (mergeArtists
        ⟨[("artist a", ⟨"Artist A", ["rock"], ["energetic"], [], "t0", "t0"⟩)], []⟩
        ["Artist A"] [("Artist A", ⟨["unknown"], ["unknown"]⟩)]
        ⟨"Fest", "https://x.test"⟩ "t1").artists "artist a").map (·.genres)
      = some ["unknown"])
    ∧ (alistLookup ([("artist a",
          (⟨"Artist A", ["rock"], ["energetic"], [], "t0", "t0"⟩ : ArtistRec))])
        "artist a").map (·.genres) = some ["rock"] := by
  exact ⟨by decide, by decide⟩

/-- C1 (amended): merging a batch whose classification for a stored artist has a
non-empty genre list — including the sentinel `["unknown"]` — replaces the
stored genres with the incoming list; the stored genres survive the merge
exactly when the incoming classification's genre list is empty (in particular
when the name is absent from the classifications mapping). -/
theorem c1_amended_merge_overwrite (data : Store) (name : String) (a : ArtistRec)
    (cls : List (String × Classification)) (fi : FestivalInfo) (now : String)
    (ha : alistLookup data.artists (normalizeName name) = some a) :
    (∀ c, alistLookup cls name = some c → c.genres ≠ [] →
      (alistLookup (mergeArtists data [name] cls fi now).artists
          (normalizeName name)).map (·.genres) = some c.genres)
    ∧ (((alistLookup cls name).getD ⟨[], []⟩).genres = [] →
      (alistLookup (mergeArtists data [name] cls fi now).artists
          (normalizeName name)).map (·.genres) = some a.genres) := by
  have key : (mergeArtists data [name] cls fi now).artists
      = (mergeStep cls fi now data name).artists := by
    unfold mergeArtists
    rw [List.foldl_cons, List.foldl_nil]
    exact mergeStep_artists_eq cls fi now _ data name (by split <;> rfl)
  constructor
  · intro c hc hg
    rw [key, mergeStep_lookup_some cls fi now data name a ha _, if_pos rfl,
      Option.map_some', mergeExistingArtist_genres, hc, Option.getD_some, if_pos hg]
  · intro hg
    rw [key, mergeStep_lookup_some cls fi now data name a ha _, if_pos rfl,
      Option.map_some', mergeExistingArtist_genres, if_neg (fun h => h hg)]

/-- Witness for the amended C1 at a concrete store: "X" stored with genres
`["rock"]` is reclassified as `["unknown"]`, and the merge overwrites. -/
theorem c1_amended_merge_overwrite_witness :
    (alistLookup (mergeArtists
        ⟨[("x", ⟨"X", ["rock"], ["energetic"], [], "t0", "t0"⟩)], []⟩
        ["X"] [("X", ⟨["unknown"], ["unknown"]⟩)] ⟨"F", "u"⟩ "t1").artists
      (normalizeName "X")).map (·.genres) = some ["unknown"] :=
  (c1_amended_merge_overwrite
      ⟨[("x", ⟨"X", ["rock"], ["energetic"], [], "t0", "t0"⟩)], []⟩ "X"
      ⟨"X", ["rock"], ["energetic"], [], "t0", "t0"⟩
      [("X", ⟨["unknown"], ["unknown"]⟩)] ⟨"F", "u"⟩ "t1" (by decide)).1
    ⟨["unknown"], ["unknown"]⟩ (by decide) (by decide)

/-- C2: applying `merge_artists` a second time with the same
`(names, classifications, festival_info)` changes neither the number of artist
entries nor the number of festival entries, and (third conjunct) adds no
second festival reference to any artist of the batch: each such artist's
stored festival list is exactly what the first merge left. -/
theorem c2_merge_artists_idempotent_cardinalities (data : Store) (names : List String)
    (cls : List (String × Classification)) (fi : FestivalInfo) (now now' : String) :
    (mergeArtists (mergeArtists data names cls fi now) names cls fi now').artists.length
        = (mergeArtists data names cls fi now).artists.length
    ∧ (mergeArtists (mergeArtists data names cls fi now) names cls fi now').festivals.length
        = (mergeArtists data names cls fi now).festivals.length
    ∧ ∀ name ∈ names,
        (alistLookup (mergeArtists (mergeArtists data names cls fi now) names cls fi
            now').artists (normalizeName name)).map (·.festivals)
          = (alistLookup (mergeArtists data names cls fi now).artists
              (normalizeName name)).map (·.festivals) := by
  have hm2 : mergeArtists (mergeArtists data names cls fi now) names cls fi now'
      = names.foldl (mergeStep cls fi now') (mergeArtists data names cls fi now) :=
    mergeArtists_of_url_mem _ names cls fi now' (mergeArtists_url_mem data names cls fi now)
  have hkeys : ∀ name ∈ names,
      (alistLookup (mergeArtists data names cls fi now).artists (normalizeName name)).isSome :=
    fun name hn => foldl_mergeStep_has_keys cls fi now names _ name hn
  have hurls : ∀ name ∈ names, ∀ a,
      alistLookup (mergeArtists data names cls fi now).artists (normalizeName name) = some a →
      fi.url ∈ a.festivals.map (·.url) :=
    fun name hn => foldl_mergeStep_url_self cls fi now names _ name hn
  refine ⟨?_, ?_, ?_⟩
  · rw [hm2]
    exact foldl_mergeStep_length cls fi now' names _ hkeys
  · rw [hm2, foldl_mergeStep_festivals]
  · intro name hn
    rw [hm2]
    exact foldl_mergeStep_preserves_festivals cls fi now' names _
      (fun n hn' => ⟨hkeys n hn', hurls n hn'⟩) (normalizeName name)

/-- Witness for C2 at a concrete input: one artist, an initially empty store. -/
theorem c2_merge_artists_idempotent_cardinalities_witness :
    ((mergeArtists (mergeArtists ⟨[], []⟩ ["Artist A"] [] ⟨"F", "u"⟩ "t1")
        ["Artist A"] [] ⟨"F", "u"⟩ "t2").artists.length
      = (mergeArtists ⟨[], []⟩ ["Artist A"] [] ⟨"F", "u"⟩ "t1").artists.length)
    ∧ ((mergeArtists (mergeArtists ⟨[], []⟩ ["Artist A"] [] ⟨"F", "u"⟩ "t1")
        ["Artist A"] [] ⟨"F", "u"⟩ "t2").festivals.length
      = (mergeArtists ⟨[], []⟩ ["Artist A"] [] ⟨"F", "u"⟩ "t1").festivals.length)
    ∧ ((alistLookup (mergeArtists (mergeArtists ⟨[], []⟩ ["Artist A"] [] ⟨"F", "u"⟩ "t1")
          ["Artist A"] [] ⟨"F", "u"⟩ "t2").artists (normalizeName "Artist A")).map (·.festivals)
      = (alistLookup (mergeArtists ⟨[], []⟩ ["Artist A"] [] ⟨"F", "u"⟩ "t1").artists
          (normalizeName "Artist A")).map (·.festivals)) :=
  ⟨(c2_merge_artists_idempotent_cardinalities ⟨[], []⟩ ["Artist A"] [] ⟨"F", "u"⟩ "t1" "t2").1,
   (c2_merge_artists_idempotent_cardinalities ⟨[], []⟩ ["Artist A"] [] ⟨"F", "u"⟩ "t1" "t2").2.1,
   (c2_merge_artists_idempotent_cardinalities ⟨[], []⟩ ["Artist A"] [] ⟨"F", "u"⟩ "t1" "t2").2.2
     "Artist A" (by simp)⟩

/-- C10: a name whose normalized key is not in the store and which is absent
from the classifications mapping produces, at the loop iteration that creates
it, an artist record with `genres == []` and `timbre == []` (the empty list,
not the `["unknown"]` sentinel), carrying only the current festival entry. -/
theorem c10_new_unclassified_artist_empty_lists (cls : List (String × Classification))
    (fi : FestivalInfo) (now : String) (data : Store) (name : String)
    (hkey : alistLookup data.artists (normalizeName name) = none)
    (hcls : alistLookup cls name = none) :
    alistLookup (mergeStep cls fi now data name).artists (normalizeName name)
      = some ⟨name, [], [], [⟨fi.name, fi.url, now⟩], now, now⟩ := by
  rw [mergeStep_lookup_none cls fi now data name hkey _, if_pos rfl, hcls]
  rfl

/-- Witness for C10 on a concrete fresh store. -/
theorem c10_new_unclassified_artist_empty_lists_witness :
    alistLookup (mergeStep [] ⟨"Fest", "https://x.test"⟩ "t0" ⟨[], []⟩ "New Artist").artists
        (normalizeName "New Artist")
      = some ⟨"New Artist", [], [], [⟨"Fest", "https://x.test", "t0"⟩], "t0", "t0"⟩ :=
  c10_new_unclassified_artist_empty_lists [] ⟨"Fest", "https://x.test"⟩ "t0" ⟨[], []⟩
    "New Artist" rfl rfl


/-! ## Claim theorems about the OCR noise filter -/

/-- C5 (counterexample): two of the four sample inputs decide the other way.
`_is_ocr_noise("Main Stage 2")` is `false`: every `_POSTER_NOISE` alternative
is anchored `^(...)$`, and neither `main\s+stage` nor `stage\s*\d*` matches
the full string "Main Stage 2", while all remaining rules pass.
`_is_ocr_noise("Fred again..")` is `true`: the `_SENTENCE_CHARS` rule `[.!?;]`
fires on the literal dots. -/
theorem c5_noise_samples_counterexample :
    Ocr.isOcrNoise "Main Stage 2" = false ∧ Ocr.isOcrNoise "Fred again.." = true := by
  exact ⟨by decide, by decide⟩

/-- C5 (amended): of the spec's four samples, `is_noise("June 14")` and
`is_noise("VIP")` are `true` as claimed, but `is_noise("Main Stage 2")` is
`false` (no anchored poster-noise alternative covers the full string) and
`is_noise("Fred again..")` is `true` (sentence-punctuation rule fires on the
mid-name dots). -/
theorem c5_noise_samples_amended :
    Ocr.isOcrNoise "June 14" = true ∧ Ocr.isOcrNoise "VIP" = true
    ∧ Ocr.isOcrNoise "Main Stage 2" = false ∧ Ocr.isOcrNoise "Fred again.." = true := by
  exact ⟨by decide, by decide, by decide, by decide⟩

/-! ## Claim theorems about the fuzzy validator and the 503 retries -/

theorem countP_bne_zip_comm (a b : List Char) :
    (a.zip b).countP (fun q => q.1 != q.2) = (b.zip a).countP (fun q => q.1 != q.2) := by
  induction a generalizing b with
  | nil => cases b <;> rfl
  | cons x xs ih =>
      cases b with
      | nil => rfl
      | cons y ys =>
          simp only [List.zip_cons_cons, List.countP_cons, ih ys]
          have hb : (x != y) = (y != x) := by
            by_cases h : x = y
            · subst h; rfl
            · have h' : ¬ y = x := fun e => h e.symm
              simp [bne, h, h']
          rw [hb]

/-- `_fuzzy_match` in terms of the claim's symmetric reading: length
difference at most 2, and position-wise mismatches plus length difference at
most 2 in total. -/
theorem fuzzyMatch_iff (a b : String) :
    fuzzyMatch a b = true ↔
      (max a.data.length b.data.length - min a.data.length b.data.length ≤ 2
       ∧ (a.data.zip b.data).countP (fun q => q.1 != q.2)
           + (max a.data.length b.data.length - min a.data.length b.data.length) ≤ 2) := by
  simp only [fuzzyMatch]
  by_cases hgt : max a.data.length b.data.length - min a.data.length b.data.length > 2
  · rw [if_pos hgt]
    constructor
    · intro h; cases h
    · rintro ⟨h1, _⟩; omega
  · rw [if_neg hgt]
    by_cases hle : a.data.length ≤ b.data.length
    · rw [if_pos hle]
      have hmax : max a.data.length b.data.length = b.data.length := Nat.max_eq_right hle
      have hmin : min a.data.length b.data.length = a.data.length := Nat.min_eq_left hle
      simp only [decide_eq_true_eq, hmax, hmin]
      omega
    · rw [if_neg hle]
      have hle' : b.data.length ≤ a.data.length := Nat.le_of_not_le hle
      have hmax : max a.data.length b.data.length = a.data.length := Nat.max_eq_left hle'
      have hmin : min a.data.length b.data.length = b.data.length := Nat.min_eq_right hle'
      simp only [decide_eq_true_eq, hmax, hmin, countP_bne_zip_comm b.data a.data]
      omega

/-- Unfolding `_validate_artist_musicbrainz` against a 200 response. -/
theorem validateArtistMB_ok (svc : Nat → MBResp) (name : String)
    (cands : List MBCand) (hsvc : svc 0 = MBResp.ok cands) :
    validateArtistMB svc name =
      if cands.isEmpty then none
      else (cands.find? (acceptCand (pyStrip (pyLower name)))).map (·.name) := by
  have h : validateArtistMB svc name =
      match svc 0 with
      | .exn => none
      | .code c => if c = 503 then validateArtistMBAux svc name 2 1 else none
      | .ok artists =>
          if artists.isEmpty then none
          else (artists.find? (acceptCand (pyStrip (pyLower name)))).map (·.name) := rfl
  rw [h, hsvc]

/-- Unfolding `_validate_artist_musicbrainz` against a transport failure. -/
theorem validateArtistMB_exn (svc : Nat → MBResp) (name : String)
    (hsvc : svc 0 = MBResp.exn) :
    validateArtistMB svc name = none := by
  have h : validateArtistMB svc name =
      match svc 0 with
      | .exn => none
      | .code c => if c = 503 then validateArtistMBAux svc name 2 1 else none
      | .ok artists =>
          if artists.isEmpty then none
          else (artists.find? (acceptCand (pyStrip (pyLower name)))).map (·.name) := rfl
  rw [h, hsvc]

/-- C4: over a search response carrying candidate list `cands`, the validator
returns `some res` only for an accepted candidate's service-canonical name
`c.name` (never a re-used input spelling); returns `none` when no candidate is
acceptable; a candidate is accepted exactly when its score is ≥ 90 with
case/whitespace-insensitive equality or ≥ 80 with that equality or the
bounded edit-distance check; the edit-distance check passes exactly when the
length difference is ≤ 2 and mismatches plus length difference total ≤ 2; and
a transport failure yields `none`. -/
theorem c4_fuzzy_validator_accepts (svc : Nat → MBResp) (name : String)
    (cands : List MBCand) (hsvc : svc 0 = .ok cands) :
    (∀ res, validateArtistMB svc name = some res →
        ∃ c ∈ cands, acceptCand (pyStrip (pyLower name)) c = true ∧ res = c.name)
    ∧ ((∀ c ∈ cands, acceptCand (pyStrip (pyLower name)) c = false) →
        validateArtistMB svc name = none)
    ∧ (∀ c, acceptCand (pyStrip (pyLower name)) c = true ↔
        ((90 ≤ c.score ∧ pyStrip (pyLower c.name) = pyStrip (pyLower name))
          ∨ (80 ≤ c.score ∧ (pyStrip (pyLower c.name) = pyStrip (pyLower name)
              ∨ fuzzyMatch (pyStrip (pyLower name)) (pyStrip (pyLower c.name)) = true))))
    ∧ (∀ a b : String, fuzzyMatch a b = true ↔
        (max a.data.length b.data.length - min a.data.length b.data.length ≤ 2
         ∧ (a.data.zip b.data).countP (fun q => q.1 != q.2)
             + (max a.data.length b.data.length - min a.data.length b.data.length) ≤ 2))
    ∧ (∀ svc' : Nat → MBResp, svc' 0 = MBResp.exn →
        validateArtistMB svc' name = none) := by
  refine ⟨?_, ?_, ?_, fuzzyMatch_iff, ?_⟩
  · intro res hres
    rw [validateArtistMB_ok svc name cands hsvc] at hres
    by_cases hemp : cands.isEmpty
    · rw [if_pos hemp] at hres; cases hres
    · rw [if_neg hemp] at hres
      cases hfind : cands.find? (acceptCand (pyStrip (pyLower name))) with
      | none => rw [hfind] at hres; cases hres
      | some c =>
          rw [hfind] at hres
          cases hres
          exact ⟨c, List.mem_of_find?_eq_some hfind, List.find?_some hfind, rfl⟩
  · intro hall
    rw [validateArtistMB_ok svc name cands hsvc]
    have hfind : cands.find? (acceptCand (pyStrip (pyLower name))) = none :=
      List.find?_eq_none.mpr (fun c hc => by rw [hall c hc]; exact Bool.false_ne_true)
    rw [hfind]
    split <;> rfl
  · intro c
    simp only [acceptCand, Bool.or_eq_true, Bool.and_eq_true, decide_eq_true_eq]
  · intro svc' h
    exact validateArtistMB_exn svc' name h

/-- Witness for C4: a high-scoring but differently-named candidate is
rejected, so the validator reports no match. -/
theorem c4_fuzzy_validator_accepts_witness :
    validateArtistMB (fun _ => MBResp.ok [⟨"Something Else", 95⟩]) "daft punk" = none :=
  (c4_fuzzy_validator_accepts (fun _ => MBResp.ok [⟨"Something Else", 95⟩]) "daft punk"
      [⟨"Something Else", 95⟩] rfl).2.1 (by decide)

/-- C3 (counterexample): `classifier._search_artist` retries a 503 with NO
attempt cap — the recursion `if resp.status_code == 503: return
_search_artist(name)` carries no counter.  Against a service answering 503 to
every request, 50 recursion unfoldings (far beyond the claimed 3-attempt cap,
which would have produced an outcome by the 4th request) still yield no
outcome.  The OCR validator, by contrast, does cap at 3 retries and then
reports absence. -/
theorem c3_bounded_retry_counterexample :
    searchArtistFuel (fun _ => SResp.unavailable) 50 0 = none
    ∧ validateArtistMB (fun _ => MBResp.code 503) "Daft Punk" = none := by
  exact ⟨rfl, rfl⟩

/-- C3 (amended): only `ocr._validate_artist_musicbrainz` bounds its 503
retries (3 retries, then absence of data); `classifier._search_artist`
retries 503 unconditionally, so against an always-503 service no finite
number of recursion unfoldings produces an outcome — it does not terminate
with 3 attempts (in Python it only stops when the interpreter's recursion
limit raises).  It does return as soon as the service answers anything other
than 503. -/
theorem c3_amended_retry_bounds :
    (∀ fuel attempt, searchArtistFuel (fun _ => SResp.unavailable) fuel attempt = none)
    ∧ (∀ name, validateArtistMB (fun _ => MBResp.code 503) name = none)
    ∧ (∀ (svc : Nat → SResp) (artists : List MBArtist) (fuel attempt : Nat),
        svc attempt = SResp.ok artists →
        searchArtistFuel svc (fuel + 1) attempt = some (SOut.found artists.head?)) := by
  refine ⟨?_, fun _ => rfl, ?_⟩
  · intro fuel
    induction fuel with
    | zero => intro attempt; rfl
    | succ f ih =>
        intro attempt
        simp only [searchArtistFuel]
        exact ih (attempt + 1)
  · intro svc artists fuel attempt h
    simp only [searchArtistFuel, h]

/-- Witness for the amended C3: seven unfoldings against an always-503
service yield no outcome, while a recovered service answers at once. -/
theorem c3_amended_retry_bounds_witness :
    searchArtistFuel (fun _ => SResp.unavailable) 7 0 = none
    ∧ searchArtistFuel (fun _ => SResp.ok []) 1 0 = some (SOut.found none) :=
  ⟨c3_amended_retry_bounds.1 7 0,
   c3_amended_retry_bounds.2.2 (fun _ => SResp.ok []) [] 0 0 rfl⟩

/-! ## Claim theorems about classifier.py -/

theorem classifyArtistT_requests (svc : MBService) (name : String) :
    ((classifyArtistT svc name).2.countP Request.isSearchReq = 1)
    ∧ ((classifyArtistT svc name).2.countP Request.isTagsReq ≤ 1)
    ∧ (∀ r ∈ (classifyArtistT svc name).2,
        Request.isSearchReq r = true ∨ Request.isTagsReq r = true) := by
  unfold classifyArtistT
  cases svc.search name with
  | none =>
      refine ⟨?_, ?_, ?_⟩ <;>
        simp [List.countP_cons, Request.isSearchReq, Request.isTagsReq]
  | some artist =>
      obtain ⟨aid⟩ := artist
      cases aid with
      | none =>
          refine ⟨?_, ?_, ?_⟩ <;>
            simp [List.countP_cons, Request.isSearchReq, Request.isTagsReq]
      | some id =>
          by_cases hid : id = "" <;>
            refine ⟨?_, ?_, ?_⟩ <;>
              simp [hid, List.countP_cons, Request.isSearchReq, Request.isTagsReq]

theorem classifyBatchStep_no_skip (svc : MBService) (existing : Store)
    (acc : List (String × Classification) × List Request) (name : String)
    (hnew : ∀ a, alistLookup existing.artists (normalizeName name) = some a →
        a.genres = [] ∨ a.genres = ["unknown"]) :
    classifyBatchStep svc existing acc name =
      (dictInsert acc.1 name (classifyArtistT svc name).1,
       acc.2 ++ (classifyArtistT svc name).2) := by
  unfold classifyBatchStep
  cases hl : alistLookup existing.artists (normalizeName name) with
  | none => simp [hl]
  | some a => rcases hnew a hl with h | h <;> simp [hl, h]

theorem classifyBatch_fold_counts (svc : MBService) (existing : Store) :
    ∀ names : List String,
      (∀ name ∈ names, ∀ a,
          alistLookup existing.artists (normalizeName name) = some a →
          a.genres = [] ∨ a.genres = ["unknown"]) →
      ∀ acc : List (String × Classification) × List Request,
        ((names.foldl (classifyBatchStep svc existing) acc).2.countP Request.isSearchReq
            = acc.2.countP Request.isSearchReq + names.length)
        ∧ ((names.foldl (classifyBatchStep svc existing) acc).2.countP Request.isTagsReq
            ≤ acc.2.countP Request.isTagsReq + names.length)
        ∧ ((∀ r ∈ acc.2, Request.isSearchReq r = true ∨ Request.isTagsReq r = true) →
            ∀ r ∈ (names.foldl (classifyBatchStep svc existing) acc).2,
              Request.isSearchReq r = true ∨ Request.isTagsReq r = true) := by
  intro names
  induction names with
  | nil => exact fun _ acc => ⟨by simp, by simp, fun h => h⟩
  | cons n rest ih =>
      intro hnew acc
      have hstep := classifyBatchStep_no_skip svc existing acc n
        (hnew n (List.mem_cons_self _ _))
      obtain ⟨h1, h2, h3⟩ := ih (fun m hm => hnew m (List.mem_cons_of_mem _ hm))
        (classifyBatchStep svc existing acc n)
      obtain ⟨q1, q2, q3⟩ := classifyArtistT_requests svc n
      rw [List.foldl_cons]
      refine ⟨?_, ?_, ?_⟩
      · rw [h1, hstep]
        simp only [List.countP_append, List.length_cons]
        omega
      · refine le_trans h2 ?_
        rw [hstep]
        simp only [List.countP_append, List.length_cons]
        omega
      · intro hin
        refine h3 ?_
        rw [hstep]
        intro r hr
        rcases List.mem_append.mp hr with h | h
        · exact hin r h
        · exact q3 r h

/-- C6: against a pure service (no 503s, no exceptions), a batch none of
whose normalized keys is stored with real (non-empty, non-unknown) genres
issues exactly `names.length` search requests, at most `names.length` tag
requests, and nothing else. -/
theorem c6_rate_limit_requests (svc : MBService) (names : List String)
    (existing : Store)
    (hnew : ∀ name ∈ names, ∀ a,
        alistLookup existing.artists (normalizeName name) = some a →
        a.genres = [] ∨ a.genres = ["unknown"]) :
    ((classifyBatchT svc names existing).2.countP Request.isSearchReq = names.length)
    ∧ ((classifyBatchT svc names existing).2.countP Request.isTagsReq ≤ names.length)
    ∧ (∀ r ∈ (classifyBatchT svc names existing).2,
        Request.isSearchReq r = true ∨ Request.isTagsReq r = true) := by
  obtain ⟨h1, h2, h3⟩ := classifyBatch_fold_counts svc existing names hnew ([], [])
  exact ⟨by simpa using h1, by simpa using h2, h3 (by simp)⟩

/-- Witness for C6: two fresh names against an empty store and a service
whose search always finds an id produce exactly 2 searches and ≤ 2 tag
fetches. -/
theorem c6_rate_limit_requests_witness :
    ((classifyBatchT ⟨fun _ => some ⟨some "id1"⟩, fun _ => []⟩
        ["Artist A", "Artist B"] ⟨[], []⟩).2.countP Request.isSearchReq = 2)
    ∧ ((classifyBatchT ⟨fun _ => some ⟨some "id1"⟩, fun _ => []⟩
        ["Artist A", "Artist B"] ⟨[], []⟩).2.countP Request.isTagsReq ≤ 2) :=
  ⟨(c6_rate_limit_requests ⟨fun _ => some ⟨some "id1"⟩, fun _ => []⟩
      ["Artist A", "Artist B"] ⟨[], []⟩ (fun _ _ _ h => nomatch h)).1,
   (c6_rate_limit_requests ⟨fun _ => some ⟨some "id1"⟩, fun _ => []⟩
      ["Artist A", "Artist B"] ⟨[], []⟩ (fun _ _ _ h => nomatch h)).2.1⟩

theorem tagsToGenres_length (tags : List String) :
    1 ≤ (tagsToGenres tags).length ∧ (tagsToGenres tags).length ≤ 3 := by
  unfold tagsToGenres
  by_cases he : tags.isEmpty
  · rw [if_pos he]; exact ⟨by simp, by simp⟩
  · rw [if_neg he]
    have hne : tags ≠ [] := fun h => he (by simp [h])
    have hlen : 1 ≤ tags.length := List.length_pos.mpr hne
    by_cases hf : (tags.filter (fun t => !(RE.reMatch nonGenrePattern t))).isEmpty
    · rw [if_pos hf]
      exact ⟨by rw [List.length_take]; exact Nat.le_min.mpr ⟨by norm_num, hlen⟩,
        by rw [List.length_take]; exact Nat.min_le_left _ _⟩
    · rw [if_neg hf]
      have hfne : tags.filter (fun t => !(RE.reMatch nonGenrePattern t)) ≠ [] :=
        fun h => hf (by simp [h])
      have hflen : 1 ≤ (tags.filter (fun t => !(RE.reMatch nonGenrePattern t))).length :=
        List.length_pos.mpr hfne
      exact ⟨by rw [List.length_take]; exact Nat.le_min.mpr ⟨by norm_num, hflen⟩,
        by rw [List.length_take]; exact Nat.min_le_left _ _⟩

theorem timbreWalk_length_le (tags : List String) :
    ∀ (table : List (String × List String)) (acc : List String),
      acc.length ≤ 3 → (timbreWalk tags table acc).length ≤ 4 := by
  intro table
  induction table with
  | nil => intro acc h; unfold timbreWalk; omega
  | cons p rest ih =>
      intro acc h
      obtain ⟨descriptor, keywords⟩ := p
      unfold timbreWalk
      by_cases hany : keywords.any (fun kw =>
          tags.contains kw || tags.any (fun t => pyContains t kw))
      · rw [if_pos hany]
        by_cases h4 : 4 ≤ (acc ++ [descriptor]).length
        · rw [if_pos h4]; simp at h4 ⊢; omega
        · rw [if_neg h4]
          exact ih (acc ++ [descriptor]) (by simp at h4 ⊢; omega)
      · rw [if_neg hany]
        by_cases h4 : 4 ≤ acc.length
        · rw [if_pos h4]; omega
        · rw [if_neg h4]; exact ih acc h

theorem tagsToTimbre_length (tags : List String) :
    1 ≤ (tagsToTimbre tags).length ∧ (tagsToTimbre tags).length ≤ 4 := by
  unfold tagsToTimbre
  by_cases he : tags.isEmpty
  · rw [if_pos he]; exact ⟨by simp, by simp⟩
  · rw [if_neg he]
    by_cases hd : (timbreWalk tags TIMBRE_MAP []).isEmpty
    · rw [if_pos hd]; exact ⟨by simp, by simp⟩
    · rw [if_neg hd]
      have hne : timbreWalk tags TIMBRE_MAP [] ≠ [] := fun h => hd (by simp [h])
      exact ⟨List.length_pos.mpr hne, timbreWalk_length_le tags TIMBRE_MAP [] (by simp)⟩

theorem classifyArtistT_wellFormed (svc : MBService) (name : String) :
    wellFormedClassification (classifyArtistT svc name).1 := by
  unfold classifyArtistT wellFormedClassification
  cases svc.search name with
  | none => exact ⟨by simp, by simp, by simp, by simp⟩
  | some artist =>
      obtain ⟨aid⟩ := artist
      cases aid with
      | none => exact ⟨by simp, by simp, by simp, by simp⟩
      | some id =>
          by_cases hid : id = ""
          · simp only [if_pos hid]
            exact ⟨by simp, by simp, by simp, by simp⟩
          · simp only [if_neg hid]
            obtain ⟨g1, g2⟩ := tagsToGenres_length (getArtistTagsPure (svc.tags id))
            obtain ⟨t1, t2⟩ := tagsToTimbre_length (getArtistTagsPure (svc.tags id))
            exact ⟨List.length_pos.mp (by omega), g2,
              List.length_pos.mp (by omega), t2⟩

theorem mem_dictInsert {α : Type} (l : List (String × α)) (k : String) (v : α)
    (p : String × α) (hp : p ∈ dictInsert l k v) : p ∈ l ∨ p = (k, v) := by
  unfold dictInsert at hp
  split at hp
  · unfold alistUpdate at hp
    obtain ⟨q, hq, hfq⟩ := List.mem_map.mp hp
    by_cases h : q.1 = k
    · rw [if_pos h] at hfq; exact Or.inr hfq.symm
    · rw [if_neg h] at hfq; exact Or.inl (hfq ▸ hq)
  · rcases List.mem_append.mp hp with h | h
    · exact Or.inl h
    · exact Or.inr (List.mem_singleton.mp h)

theorem classifyBatch_values_wellFormed (svc : MBService) (existing : Store) :
    ∀ (names : List String) (acc : List (String × Classification) × List Request),
      (∀ p ∈ acc.1, wellFormedClassification p.2) →
      ∀ p ∈ (names.foldl (classifyBatchStep svc existing) acc).1,
        wellFormedClassification p.2 := by
  intro names
  induction names with
  | nil => exact fun acc h => h
  | cons n rest ih =>
      intro acc hacc
      rw [List.foldl_cons]
      apply ih
      intro p hp
      simp only [classifyBatchStep] at hp
      split at hp
      · exact hacc p hp
      · rcases mem_dictInsert acc.1 n (classifyArtistT svc n).1 p hp with h | h
        · exact hacc p h
        · rw [h]; exact classifyArtistT_wellFormed svc n

/-- C9: `_tags_to_genres` always yields 1-3 entries, `_tags_to_timbre` 1-4,
every `classify_artist` result has non-empty genres (≤3) and timbre (≤4)
lists — `["unknown"]` in the no-data case — and so does every value of the
mapping returned by `classify_batch`. -/
theorem c9_classification_shape :
    (∀ tags : List String,
        1 ≤ (tagsToGenres tags).length ∧ (tagsToGenres tags).length ≤ 3)
    ∧ (∀ tags : List String,
        1 ≤ (tagsToTimbre tags).length ∧ (tagsToTimbre tags).length ≤ 4)
    ∧ (∀ (svc : MBService) (name : String),
        wellFormedClassification (classifyArtistT svc name).1)
    ∧ (∀ (svc : MBService) (names : List String) (existing : Store),
        ∀ p ∈ (classifyBatchT svc names existing).1,
          wellFormedClassification p.2) :=
  ⟨tagsToGenres_length, tagsToTimbre_length, classifyArtistT_wellFormed,
   fun svc names existing =>
     classifyBatch_values_wellFormed svc existing names ([], []) (by simp)⟩

/-- Witness for C9: a concrete batch value (a service with no data downgrades
the name to the `["unknown"]` sentinel pair) satisfies the shape invariant. -/
theorem c9_classification_shape_witness :
    wellFormedClassification ⟨["unknown"], ["unknown"]⟩
    ∧ (1 ≤ (tagsToGenres ["rock", "pop", "punk", "ska"]).length
        ∧ (tagsToGenres ["rock", "pop", "punk", "ska"]).length ≤ 3) :=
  ⟨c9_classification_shape.2.2.2 ⟨fun _ => none, fun _ => []⟩ ["A"] ⟨[], []⟩
      ("A", ⟨["unknown"], ["unknown"]⟩) (by decide),
   c9_classification_shape.1 ["rock", "pop", "punk", "ska"]⟩

/-! ## Claim theorems about app.py -/

/-- C8: the normalizer maps
`["Artist A b2b Artist B (Sunrise Set)", "artist a"]` to exactly
`["Artist A", "Artist B"]`: the first entry splits on the case-insensitive
b2b marker, the parenthesized set note is stripped, and the second entry is
dropped as a case-insensitive duplicate of the first split result. -/
theorem c8_clean_artist_names_example :
    cleanArtistNames ["Artist A b2b Artist B (Sunrise Set)", "artist a"]
      = ["Artist A", "Artist B"] := by
  decide

/-- C7: the recommender returns at most `k` artists, each drawn from the
mapping with a key different from the target's lowercased name and with
genres other than exactly `["unknown"]`; the ranked list is sorted by
similarity descending with ties in original iteration order (the
`descRel`-sortedness of the enumerated list); a zero-magnitude vector gives
similarity 0 with no division fault; and an empty vocabulary gives an empty
result. -/
theorem c7_similarity_recommender (target : ArtistRec)
    (allArtists : List (String × ArtistRec)) (k : Nat) :
    ((findSimilarArtists target allArtists k).length ≤ k)
    ∧ (∀ a ∈ findSimilarArtists target allArtists k,
        ∃ key, (key, a) ∈ allArtists ∧ key ≠ pyLower target.name
          ∧ a.genres ≠ ["unknown"])
    ∧ List.Sorted (descRel (fun p : ℚ × ArtistRec => p.1))
        (rankedSimilar target allArtists)
    ∧ (∀ a b : List Nat, magSq a = 0 ∨ magSq b = 0 → cosineSimSq a b = 0)
    ∧ (buildVocab allArtists = [] → findSimilarArtists target allArtists k = []) := by
  refine ⟨?_, ?_, ?_, ?_, ?_⟩
  · unfold findSimilarArtists
    split
    · simp
    · calc ((((rankedSimilar target allArtists).map (·.2)).take k).map (·.2)).length
          = (((rankedSimilar target allArtists).map (·.2)).take k).length :=
            List.length_map _ _
      _ ≤ k := List.length_take_le _ _
  · intro a ha
    unfold findSimilarArtists at ha
    split at ha
    · cases ha
    · obtain ⟨q, hq, hqa⟩ := List.mem_map.mp ha
      have hq' : q ∈ (rankedSimilar target allArtists).map (·.2) :=
        List.mem_of_mem_take hq
      obtain ⟨e, he, heq⟩ := List.mem_map.mp hq'
      have hscored : e.2 ∈ scoredSimilar target allArtists := by
        have hperm : List.Perm (rankedSimilar target allArtists)
            (scoredSimilar target allArtists).enum := List.perm_insertionSort _ _
        have he2 : e ∈ (scoredSimilar target allArtists).enum := hperm.mem_iff.mp he
        have hm := List.mem_map_of_mem Prod.snd he2
        rwa [List.enum_map_snd] at hm
      simp only [scoredSimilar] at hscored
      obtain ⟨p, hp, hpe⟩ := List.mem_map.mp hscored
      have hfilter := List.mem_filter.mp hp
      have hcond := hfilter.2
      simp only [Bool.and_eq_true, decide_eq_true_eq] at hcond
      have hpa : a = p.2 := by rw [← hqa, ← heq, ← hpe]
      refine ⟨p.1, ?_, hcond.1, by rw [hpa]; exact hcond.2⟩
      rw [hpa]
      exact hfilter.1
  · unfold rankedSimilar stableSortByDescEnum
    exact List.sorted_insertionSort _ _
  · intro a b h
    unfold cosineSimSq
    rw [if_pos h]
  · intro h
    unfold findSimilarArtists
    rw [if_pos h]

/-- Witness for C7 at concrete inputs: a two-artist store, a zero-magnitude
vector pair, and an empty store. -/
theorem c7_similarity_recommender_witness :
    ((findSimilarArtists ⟨"A", ["rock"], ["energetic"], [], "t", "t"⟩
        [("a", ⟨"A", ["rock"], ["energetic"], [], "t", "t"⟩),
         ("b", ⟨"B", ["rock"], ["heavy"], [], "t", "t"⟩)] 3).length ≤ 3)
    ∧ cosineSimSq [0] [1] = 0
    ∧ findSimilarArtists ⟨"A", ["rock"], [], [], "t", "t"⟩ [] 3 = [] :=
  ⟨(c7_similarity_recommender ⟨"A", ["rock"], ["energetic"], [], "t", "t"⟩
      [("a", ⟨"A", ["rock"], ["energetic"], [], "t", "t"⟩),
       ("b", ⟨"B", ["rock"], ["heavy"], [], "t", "t"⟩)] 3).1,
   (c7_similarity_recommender ⟨"A", ["rock"], ["energetic"], [], "t", "t"⟩ [] 3).2.2.2.1
      [0] [1] (Or.inl rfl),
   (c7_similarity_recommender ⟨"A", ["rock"], [], [], "t", "t"⟩ [] 3).2.2.2.2 rfl⟩

end FestivalFriend

